import Mathlib

/-!
Verification of the Smart Investment Report Analyzer pipeline.

The development shallowly embeds the `DocumentProcessor` class of `src/utils.py`
and the chat-history handling of `src/app.py` / `src/evaluate.py`.  External
service calls (file parsers, the embedding service, the chat model) are modelled
as parameters carrying the call's outcome (`Except Err _`), so the control flow
of each method — the branch structure, the performance-log appends and the
error propagation — is translated directly from the source.  The text-splitting
algorithm and the retrieval-chain execution live in the external langchain
library, not in this repository; those two pieces are modelled from the spec
(see the doc comments on `chunkText` and `runChain`).  Elapsed wall-clock times
are opaque rational parameters.
-/

/-- A loaded document segment (langchain `Document`): its text content as a
character list.  Metadata is not consulted by any code under verification. -/
structure Document where
  page_content : List Char
deriving Repr, DecidableEq

/-- One record appended to `self.performance_logs`: the five dict shapes built
in `src/utils.py` (lines 55-60, 86-93, 115-119, 145-149, 170-175), one
constructor per operation kind, with the same fields. -/
inductive PerfEntry where
  | document_loading (file_type : String) (page_count : Nat) (processing_time : ℚ)
  | document_splitting (input_docs output_chunks chunk_size chunk_overlap : Nat)
      (processing_time : ℚ)
  | vectorstore_creation (chunk_count : Nat) (processing_time : ℚ)
  | qa_chain_creation (model : String) (processing_time : ℚ)
  | query_processing (query_length response_length : Nat) (processing_time : ℚ)
deriving Repr, DecidableEq

/-- The `"operation"` key of a performance record (`src/utils.py` lines 56, 87,
116, 146, 171). -/
def PerfEntry.operation : PerfEntry → String
  | .document_loading .. => "document_loading"
  | .document_splitting .. => "document_splitting"
  | .vectorstore_creation .. => "vectorstore_creation"
  | .qa_chain_creation .. => "qa_chain_creation"
  | .query_processing .. => "query_processing"

/-- The `"processing_time"` key of a performance record. -/
def PerfEntry.processing_time : PerfEntry → ℚ
  | .document_loading _ _ t => t
  | .document_splitting _ _ _ _ t => t
  | .vectorstore_creation _ t => t
  | .qa_chain_creation _ t => t
  | .query_processing _ _ t => t

/-- The state of a `DocumentProcessor` instance: the fields set in `__init__`
(`src/utils.py` lines 22-32). -/
structure DocumentProcessor where
  openai_api_key : String
  chunk_size : Nat
  chunk_overlap : Nat
  performance_logs : List PerfEntry
deriving Repr, DecidableEq

/-- `DocumentProcessor.__init__` (`src/utils.py` lines 22-32): default chunking
configuration 1500/150 and an empty performance log. -/
def DocumentProcessor.init (openai_api_key : String) : DocumentProcessor :=
  { openai_api_key := openai_api_key
    chunk_size := 1500
    chunk_overlap := 150
    performance_logs := [] }

/-- Errors raised by a pipeline stage: the `ValueError` of `src/utils.py`
line 51 for an unsupported extension, and any failure surfaced by an external
service call (parser, embedding service, chat model), carried opaquely so that
re-raising it unmodified is observable. -/
inductive Err where
  | unsupportedFormat (file_path : String)
  | serviceError (message : String)
deriving Repr, DecidableEq

/-- Python's `str.endswith`, used by `load_document` to dispatch on the file
extension (`src/utils.py` lines 40, 45). -/
def strEndsWith (s suffix : String) : Bool :=
  suffix.data.isSuffixOf s.data

/-- `DocumentProcessor.load_document` (`src/utils.py` lines 34-69).
`loaderOutcome` is the outcome of the external `PyPDFLoader` / `Docx2txtLoader`
call for this path; `elapsed` is the measured duration.  On success the method
appends a `document_loading` record and returns the documents with it; an
unsupported extension raises `ValueError` before anything is appended; an
external failure is re-raised unchanged (lines 67-69). -/
def DocumentProcessor.load_document (self : DocumentProcessor) (file_path : String)
    (loaderOutcome : Except Err (List Document)) (elapsed : ℚ) :
    DocumentProcessor × Except Err (List Document × PerfEntry) :=
  if strEndsWith file_path ".pdf" then
    match loaderOutcome with
    | .ok documents =>
        let entry := PerfEntry.document_loading "pdf" documents.length elapsed
        ({ self with performance_logs := self.performance_logs ++ [entry] },
          .ok (documents, entry))
    | .error e => (self, .error e)
  else if strEndsWith file_path ".docx" then
    match loaderOutcome with
    | .ok documents =>
        let entry := PerfEntry.document_loading "docx" documents.length elapsed
        ({ self with performance_logs := self.performance_logs ++ [entry] },
          .ok (documents, entry))
    | .error e => (self, .error e)
  else (self, .error (Err.unsupportedFormat file_path))

/-- Fuel-driven worker for `chunkText`; the fuel (initially the text length)
only forces termination and never runs out, see `chunkTextAux_congr`. -/
def chunkTextAux (chunk_size chunk_overlap : Nat) : Nat → List Char → List (List Char)
  | 0, _ => []
  | fuel + 1, s =>
    if s = [] then []
    else if s.length ≤ chunk_size then [s]
    else s.take chunk_size ::
      chunkTextAux chunk_size chunk_overlap fuel (s.drop (max 1 (chunk_size - chunk_overlap)))

/-- Modelled from the spec: the text-splitting algorithm itself lives in the
external `RecursiveCharacterTextSplitter` library, not in this repository
(`src/utils.py` lines 77-82 only configure and call it).  Spec sections 1 and 4.2:
chunking is a fixed-size sliding window with overlap — each chunk is a window of
at most `chunk_size` characters of the text, and each successive window starts
`chunk_size - chunk_overlap` characters after the previous one, so consecutive
windows share `chunk_overlap` characters.  The `max 1` keeps the window
advancing even in the degenerate configurations (`chunk_overlap ≥ chunk_size`)
that the spec excludes; when `chunk_overlap < chunk_size` it is the identity. -/
def chunkText (chunk_size chunk_overlap : Nat) (s : List Char) : List (List Char) :=
  chunkTextAux chunk_size chunk_overlap s.length s

/-- Concatenation of the segment texts of a document list (spec section 3:
a chunk is a window over "the concatenation of segment text"). -/
def docsText (documents : List Document) : List Char :=
  (documents.map Document.page_content).flatten

/-- Modelled from the spec: the chunking pass of
`DocumentProcessor.split_documents` (`src/utils.py` line 82 delegates it to the
external splitter).  The chunks of a document list are the sliding windows of
`chunkText` over the concatenated segment text. -/
def split_documents (chunk_size chunk_overlap : Nat) (documents : List Document) :
    List (List Char) :=
  chunkText chunk_size chunk_overlap (docsText documents)

/-- The ordered list of consecutive pairs of a list, used to state overlap
invariants about adjacent chunks. -/
def consecPairs {α : Type} : List α → List (α × α)
  | [] => []
  | [_] => []
  | a :: b :: rest => (a, b) :: consecPairs (b :: rest)

/-- Concatenation of a chunk list with the leading `chunk_overlap` characters
of every chunk after the first removed (the round-trip reading of spec
section 8: "concatenated non-overlapping text"). -/
def dropOverlaps (chunk_overlap : Nat) : List (List Char) → List Char
  | [] => []
  | chunk :: rest => chunk ++ (rest.map (fun c => c.drop chunk_overlap)).flatten

/-- `DocumentProcessor.split_documents` (`src/utils.py` lines 71-102): the
method body around the external splitter call.  `splitterOutcome` is the
outcome of `text_splitter.split_documents(documents)` (for a successful run it
is `.ok (split_documents self.chunk_size self.chunk_overlap documents)`).  On
success a `document_splitting` record is appended; a failure is re-raised
unchanged (lines 100-102). -/
def DocumentProcessor.split_documents (self : DocumentProcessor)
    (documents : List Document) (splitterOutcome : Except Err (List (List Char)))
    (elapsed : ℚ) :
    DocumentProcessor × Except Err (List (List Char) × PerfEntry) :=
  match splitterOutcome with
  | .ok splits =>
      let entry := PerfEntry.document_splitting documents.length splits.length
        self.chunk_size self.chunk_overlap elapsed
      ({ self with performance_logs := self.performance_logs ++ [entry] },
        .ok (splits, entry))
  | .error e => (self, .error e)

/-- The populated similarity index returned by `Chroma.from_documents`
(`src/utils.py` line 111), carrying the inserted chunks. -/
structure Chroma where
  chunks : List (List Char)
deriving Repr, DecidableEq

/-- `DocumentProcessor.create_vectorstore` (`src/utils.py` lines 104-128).
`embedOutcome` is the outcome of the external embedding/indexing call; on
success a `vectorstore_creation` record is appended; a failure is re-raised
unchanged (lines 126-128). -/
def DocumentProcessor.create_vectorstore (self : DocumentProcessor)
    (splits : List (List Char)) (embedOutcome : Except Err Chroma) (elapsed : ℚ) :
    DocumentProcessor × Except Err (Chroma × PerfEntry) :=
  match embedOutcome with
  | .ok vectorstore =>
      let entry := PerfEntry.vectorstore_creation splits.length elapsed
      ({ self with performance_logs := self.performance_logs ++ [entry] },
        .ok (vectorstore, entry))
  | .error e => (self, .error e)

/-- The chat model configuration built by `ChatOpenAI(temperature=0,
model_name=model_name)` (`src/utils.py` line 136). -/
structure ChatOpenAI where
  temperature : ℚ
  model_name : String
deriving Repr, DecidableEq

/-- The retrieval chain built by `ConversationalRetrievalChain.from_llm`
(`src/utils.py` lines 137-141): the model handle, the retriever's
`search_kwargs` k, and the `return_source_documents` flag. -/
structure QAChain where
  llm : ChatOpenAI
  k : Nat
  return_source_documents : Bool
deriving Repr, DecidableEq

/-- `DocumentProcessor.create_qa_chain` (`src/utils.py` lines 130-158).
`setupOutcome` is the outcome of the external constructor calls; on success the
chain is configured with temperature 0, k = 6 and `return_source_documents =
True` and a `qa_chain_creation` record is appended; a failure is re-raised
unchanged (lines 156-158). -/
def DocumentProcessor.create_qa_chain (self : DocumentProcessor)
    (model_name : String) (setupOutcome : Except Err Unit) (elapsed : ℚ) :
    DocumentProcessor × Except Err QAChain :=
  match setupOutcome with
  | .ok _ =>
      let llm : ChatOpenAI := { temperature := 0, model_name := model_name }
      let qa_chain : QAChain :=
        { llm := llm, k := 6, return_source_documents := true }
      let entry := PerfEntry.qa_chain_creation model_name elapsed
      ({ self with performance_logs := self.performance_logs ++ [entry] },
        .ok qa_chain)
  | .error e => (self, .error e)

/-- The value returned by invoking the chain (`src/utils.py` line 166): the
answer text and the source chunks used. -/
structure QAResult where
  answer : String
  source_documents : List (List Char)
deriving Repr, DecidableEq

/-- Modelled from the spec: the execution of the `ConversationalRetrievalChain`
is library code, not in this repository.  Spec section 4.4: retrieve the K
nearest chunks (K from the chain's configuration, the similarity search
delegated to the index, here the abstract `retrieve`), invoke the generative
model at the chain's configured temperature with the question, history and
retrieved chunks (the abstract `generate`), and return the answer text together
with the source chunks used. -/
def runChain (retrieve : String → Nat → List (List Char))
    (generate : ℚ → String → List (String × String) → List (List Char) → String)
    (chain : QAChain) (question : String) (chat_history : List (String × String)) :
    QAResult :=
  let sources := retrieve question chain.k
  let answer := generate chain.llm.temperature question chat_history sources
  { answer := answer
    source_documents := if chain.return_source_documents then sources else [] }

/-- `DocumentProcessor.process_query` (`src/utils.py` lines 160-184).
`chainOutcome` is the outcome of the external chain invocation
`qa_chain({"question": query, "chat_history": chat_history})`; on success a
`query_processing` record is appended and the result returned; a failure is
re-raised unchanged (lines 182-184). -/
def DocumentProcessor.process_query (self : DocumentProcessor) (qa_chain : QAChain)
    (query : String) (chat_history : List (String × String))
    (chainOutcome : Except Err QAResult) (elapsed : ℚ) :
    DocumentProcessor × Except Err (QAResult × PerfEntry) :=
  match chainOutcome with
  | .ok result =>
      let entry := PerfEntry.query_processing query.length result.answer.length elapsed
      ({ self with performance_logs := self.performance_logs ++ [entry] },
        .ok (result, entry))
  | .error e => (self, .error e)

/-- The operation kinds present in a log, in order of first occurrence: the
key order of the Python dict `operation_groups` built at `src/utils.py`
lines 200-205. -/
def opKinds (logs : List PerfEntry) : List String :=
  logs.foldl
    (fun acc log => if log.operation ∈ acc then acc else acc ++ [log.operation]) []

/-- The group of log entries of one operation kind (`operation_groups[op]`). -/
def groupOf (logs : List PerfEntry) (op : String) : List PerfEntry :=
  logs.filter (fun log => log.operation == op)

/-- The summary dict built by `get_performance_summary` (`src/utils.py`
lines 192-210): the four keys, with the two per-kind dicts as association
lists in the key order of `operation_groups`. -/
structure PerfSummary where
  total_operations : Nat
  total_processing_time : ℚ
  operation_counts : List (String × Nat)
  average_times : List (String × ℚ)
deriving Repr, DecidableEq

/-- The body of `DocumentProcessor.get_performance_summary` (`src/utils.py`
lines 186-213) as a function of the log (the spec's `summarize()`): an empty
log yields the empty dict (`none`); otherwise the total count, the grand total
time, and per kind the entry count and arithmetic mean time. -/
def summarize (logs : List PerfEntry) : Option PerfSummary :=
  if logs = [] then none
  else
    some
      { total_operations := logs.length
        total_processing_time := (logs.map PerfEntry.processing_time).sum
        operation_counts :=
          (opKinds logs).map (fun op => (op, (groupOf logs op).length))
        average_times :=
          (opKinds logs).map (fun op =>
            (op, ((groupOf logs op).map PerfEntry.processing_time).sum /
              ((groupOf logs op).length : ℚ))) }

/-- `DocumentProcessor.get_performance_summary` as a method: it reads
`self.performance_logs` and returns the summary; `self` is returned alongside
to make the absence of state mutation statable. -/
def DocumentProcessor.get_performance_summary (self : DocumentProcessor) :
    DocumentProcessor × Option PerfSummary :=
  (self, summarize self.performance_logs)

/-- The history pairing of `src/app.py` line 168: the flat message list
`[q1, a1, q2, a2, ...]` folded into `(question, answer)` pairs at even
indices. -/
def pairUp : List String → List (String × String)
  | q :: a :: rest => (q, a) :: pairUp rest
  | _ => []

/-- The `chat_history` argument built at `src/app.py` line 168, including its
guard `if len(st.session_state.chat_history) > 1 else []`. -/
def historyArg (chat_history : List String) : List (String × String) :=
  if 1 < chat_history.length then pairUp chat_history else []

/-- One question turn of `src/app.py` lines 161-182: append the question to the
flat session history, build the history argument, call the chain (`gen` stands
for the external `st.session_state.qa` call), append the answer.  Returns the
new session history, the history argument passed to the chain, and the
answer. -/
def askQuestion (gen : String → List (String × String) → String)
    (chat_history : List String) (question : String) :
    List String × List (String × String) × String :=
  let afterQuestion := chat_history ++ [question]
  let hist := historyArg afterQuestion
  let answer := gen question hist
  (afterQuestion ++ [answer], hist, answer)

/-- One iteration of the evaluation loop of `src/evaluate.py` lines 43-69: call
the chain with the current paired history, then append `(question, answer)`.
Returns the new history, the history argument passed to the chain, and the
answer. -/
def evalStep (gen : String → List (String × String) → String)
    (chat_history : List (String × String)) (question : String) :
    List (String × String) × List (String × String) × String :=
  let answer := gen question chat_history
  (chat_history ++ [(question, answer)], chat_history, answer)

/-- The fuel of `chunkTextAux` is irrelevant as long as it covers the text
length, so `chunkText` satisfies the intended recursion equation. -/
theorem chunkTextAux_congr (c o : Nat) :
    ∀ (f1 f2 : Nat) (s : List Char), s.length ≤ f1 → s.length ≤ f2 →
      chunkTextAux c o f1 s = chunkTextAux c o f2 s := by
  intro f1
  induction f1 with
  | zero =>
    intro f2 s h1 _
    have hs : s = [] := List.length_eq_zero.mp (Nat.le_zero.mp h1)
    subst hs
    cases f2 <;> simp [chunkTextAux]
  | succ f1 ih =>
    intro f2 s h1 h2
    cases f2 with
    | zero =>
      have hs : s = [] := List.length_eq_zero.mp (Nat.le_zero.mp h2)
      subst hs
      simp [chunkTextAux]
    | succ f2 =>
      by_cases hnil : s = []
      · simp [chunkTextAux, hnil]
      · by_cases hlen : s.length ≤ c
        · simp [chunkTextAux, hnil, hlen]
        · simp only [chunkTextAux, if_neg hnil, if_neg hlen]
          congr 1
          have hpos : 0 < s.length := List.length_pos.mpr hnil
          have hmax : 1 ≤ max 1 (c - o) := le_max_left _ _
          apply ih
          · rw [List.length_drop]; omega
          · rw [List.length_drop]; omega

/-- Unfolding equation of the sliding-window chunker. -/
theorem chunkText_eq (c o : Nat) (s : List Char) :
    chunkText c o s =
      if s = [] then []
      else if s.length ≤ c then [s]
      else s.take c :: chunkText c o (s.drop (max 1 (c - o))) := by
  cases s with
  | nil => rfl
  | cons a t =>
    have hnil : (a :: t) ≠ [] := by simp
    rw [if_neg hnil]
    show chunkTextAux c o (t.length + 1) (a :: t) = _
    simp only [chunkTextAux, if_neg hnil]
    by_cases hlen : (a :: t).length ≤ c
    · rw [if_pos hlen, if_pos hlen]
    · rw [if_neg hlen, if_neg hlen]
      congr 1
      show chunkTextAux c o t.length _ =
        chunkTextAux c o ((a :: t).drop (max 1 (c - o))).length _
      have hmax : 1 ≤ max 1 (c - o) := le_max_left _ _
      apply chunkTextAux_congr
      · rw [List.length_drop, List.length_cons]; omega
      · exact le_rfl

/-- Every window produced by the chunker has at most `c` characters. -/
theorem chunkText_length_le (c o : Nat) :
    ∀ (n : Nat) (s : List Char), s.length ≤ n →
      ∀ ch ∈ chunkText c o s, ch.length ≤ c := by
  intro n
  induction n with
  | zero =>
    intro s hs ch hch
    have : s = [] := List.length_eq_zero.mp (Nat.le_zero.mp hs)
    subst this
    simp [chunkText, chunkTextAux] at hch
  | succ n ih =>
    intro s hs ch hch
    rw [chunkText_eq] at hch
    by_cases hnil : s = []
    · simp [hnil] at hch
    · rw [if_neg hnil] at hch
      have hpos : 0 < s.length := List.length_pos.mpr hnil
      by_cases hlen : s.length ≤ c
      · rw [if_pos hlen] at hch
        rw [List.mem_singleton.mp hch]
        exact hlen
      · rw [if_neg hlen] at hch
        rcases List.mem_cons.mp hch with hh | hh
        · rw [hh, List.length_take]; omega
        · refine ih (s.drop (max 1 (c - o))) ?_ ch hh
          have hmax : 1 ≤ max 1 (c - o) := le_max_left _ _
          rw [List.length_drop]; omega

/-- A nonempty text's first chunk is its `c`-character head window. -/
theorem chunkText_cons (c o : Nat) (s : List Char) (h : s ≠ []) :
    ∃ rest, chunkText c o s = s.take c :: rest := by
  rw [chunkText_eq, if_neg h]
  by_cases hlen : s.length ≤ c
  · rw [if_pos hlen]
    exact ⟨[], by rw [List.take_of_length_le hlen]⟩
  · rw [if_neg hlen]
    exact ⟨_, rfl⟩

/-- Adjacent windows of the chunker: the earlier one is full (`c` characters),
its last `o` characters are the first `o` characters of the later one, and the
later one is strictly longer than `o` characters. -/
theorem chunkText_pairs (c o : Nat) (h : o < c) :
    ∀ (n : Nat) (s : List Char), s.length ≤ n →
      ∀ p ∈ consecPairs (chunkText c o s),
        p.1.length = c ∧ p.1.drop (c - o) = p.2.take o ∧ o < p.2.length := by
  intro n
  induction n with
  | zero =>
    intro s hs p hp
    have : s = [] := List.length_eq_zero.mp (Nat.le_zero.mp hs)
    subst this
    simp [chunkText, chunkTextAux, consecPairs] at hp
  | succ n ih =>
    intro s hs p hp
    rw [chunkText_eq] at hp
    by_cases hnil : s = []
    · rw [if_pos hnil] at hp
      simp [consecPairs] at hp
    · rw [if_neg hnil] at hp
      have hpos : 0 < s.length := List.length_pos.mpr hnil
      by_cases hlen : s.length ≤ c
      · rw [if_pos hlen] at hp
        simp [consecPairs] at hp
      · rw [if_neg hlen] at hp
        have hmax : max 1 (c - o) = c - o := by omega
        rw [hmax] at hp
        have htlen : (s.drop (c - o)).length = s.length - (c - o) :=
          List.length_drop _ _
        have htnil : s.drop (c - o) ≠ [] := by
          rw [← List.length_pos]; omega
        obtain ⟨rest, hrest⟩ := chunkText_cons c o (s.drop (c - o)) htnil
        rw [hrest] at hp
        rcases List.mem_cons.mp hp with hh | hh
        · subst hh
          refine ⟨?_, ?_, ?_⟩
          · rw [List.length_take]; omega
          · show (s.take c).drop (c - o) = ((s.drop (c - o)).take c).take o
            rw [List.drop_take, List.take_take]
            have h1 : c - (c - o) = o := by omega
            have h2 : o ⊓ c = o := by omega
            rw [h1, h2]
          · show o < ((s.drop (c - o)).take c).length
            rw [List.length_take]; omega
        · rw [← hrest] at hh
          refine ih (s.drop (c - o)) ?_ p hh
          omega

/-- Dropping each later window's `o`-character overlap and concatenating
recovers the original text. -/
theorem chunkText_reassemble (c o : Nat) (h : o < c) :
    ∀ (n : Nat) (s : List Char), s.length ≤ n →
      dropOverlaps o (chunkText c o s) = s := by
  intro n
  induction n with
  | zero =>
    intro s hs
    have : s = [] := List.length_eq_zero.mp (Nat.le_zero.mp hs)
    subst this
    rfl
  | succ n ih =>
    intro s hs
    rw [chunkText_eq]
    by_cases hnil : s = []
    · rw [if_pos hnil, hnil]; rfl
    · rw [if_neg hnil]
      have hpos : 0 < s.length := List.length_pos.mpr hnil
      by_cases hlen : s.length ≤ c
      · rw [if_pos hlen]
        simp [dropOverlaps]
      · rw [if_neg hlen]
        have hmax : max 1 (c - o) = c - o := by omega
        rw [hmax]
        have htlen : (s.drop (c - o)).length = s.length - (c - o) :=
          List.length_drop _ _
        have htnil : s.drop (c - o) ≠ [] := by
          rw [← List.length_pos]; omega
        obtain ⟨rest, hrest⟩ := chunkText_cons c o (s.drop (c - o)) htnil
        have hIH : dropOverlaps o (chunkText c o (s.drop (c - o))) = s.drop (c - o) :=
          ih (s.drop (c - o)) (by omega)
        rw [hrest] at hIH
        rw [hrest]
        show s.take c ++
            (((s.drop (c - o)).take c :: rest).map (fun ch => ch.drop o)).flatten = s
        rw [List.map_cons, List.flatten_cons]
        have hblen : o ≤ ((s.drop (c - o)).take c).length := by
          rw [List.length_take]; omega
        rw [← List.drop_append_of_le_length hblen]
        have hIH2 : (s.drop (c - o)).take c ++ (rest.map (fun ch => ch.drop o)).flatten
            = s.drop (c - o) := hIH
        rw [hIH2, List.drop_drop]
        have hco : c - o + o = c := by omega
        rw [hco, List.take_append_drop]

/-- C1: with `chunk_overlap < chunk_size`, every chunk produced by
`split_documents` has at most `chunk_size` characters, and every pair of
consecutive chunks shares at least `chunk_overlap` characters: the last
`chunk_overlap` characters of the earlier chunk are exactly the first
`chunk_overlap` characters of the later one (here proved for every pair, with
no exception needed for the last chunk). -/
theorem split_documents_chunk_invariants (chunk_size chunk_overlap : Nat)
    (documents : List Document) (h : chunk_overlap < chunk_size) :
    (∀ ch ∈ split_documents chunk_size chunk_overlap documents,
        ch.length ≤ chunk_size) ∧
    (∀ p ∈ consecPairs (split_documents chunk_size chunk_overlap documents),
        p.1.drop (p.1.length - chunk_overlap) = p.2.take chunk_overlap ∧
        (p.2.take chunk_overlap).length = chunk_overlap) := by
  constructor
  · intro ch hch
    exact chunkText_length_le chunk_size chunk_overlap (docsText documents).length
      (docsText documents) le_rfl ch hch
  · intro p hp
    obtain ⟨h1, h2, h3⟩ := chunkText_pairs chunk_size chunk_overlap h
      (docsText documents).length (docsText documents) le_rfl p hp
    refine ⟨?_, ?_⟩
    · rw [h1]; exact h2
    · rw [List.length_take]; omega

/-- C1 witness: the invariants hold at the concrete configuration 5/2 on the
text "abcdefgh". -/
theorem split_documents_chunk_invariants_witness :
    2 < 5 ∧
    ((∀ ch ∈ split_documents 5 2 [Document.mk "abcdefgh".data], ch.length ≤ 5) ∧
      (∀ p ∈ consecPairs (split_documents 5 2 [Document.mk "abcdefgh".data]),
        p.1.drop (p.1.length - 2) = p.2.take 2 ∧ (p.2.take 2).length = 2)) :=
  ⟨by decide, split_documents_chunk_invariants 5 2 [Document.mk "abcdefgh".data] (by decide)⟩

/-- C2: with `chunk_overlap < chunk_size`, concatenating the chunks of
`split_documents` with each later chunk's leading overlap removed reconstructs
exactly the concatenated segment text of the input documents. -/
theorem split_documents_reconstruct (chunk_size chunk_overlap : Nat)
    (documents : List Document) (h : chunk_overlap < chunk_size) :
    dropOverlaps chunk_overlap (split_documents chunk_size chunk_overlap documents) =
      docsText documents :=
  chunkText_reassemble chunk_size chunk_overlap h (docsText documents).length
    (docsText documents) le_rfl

/-- C2 witness: the round trip at the concrete configuration 5/2 on two
segments "abcde" and "fgh". -/
theorem split_documents_reconstruct_witness :
    2 < 5 ∧
    dropOverlaps 2 (split_documents 5 2 [Document.mk "abcde".data, Document.mk "fgh".data]) =
      docsText [Document.mk "abcde".data, Document.mk "fgh".data] :=
  ⟨by decide, split_documents_reconstruct 5 2 [Document.mk "abcde".data, Document.mk "fgh".data] (by decide)⟩

/-- C7: `split_documents` is deterministic — two runs on equal document lists
with equal chunking settings return the same chunk sequence, hence the same
chunk count. -/
theorem split_documents_deterministic (cs1 co1 cs2 co2 : Nat)
    (docs1 docs2 : List Document) (hcs : cs1 = cs2) (hco : co1 = co2)
    (hdocs : docs1 = docs2) :
    split_documents cs1 co1 docs1 = split_documents cs2 co2 docs2 ∧
    (split_documents cs1 co1 docs1).length =
      (split_documents cs2 co2 docs2).length := by
  subst hcs; subst hco; subst hdocs
  exact ⟨rfl, rfl⟩

/-- C7 witness: reprocessing the same input at the default settings 1500/150
yields the identical chunk sequence and count. -/
theorem split_documents_deterministic_witness :
    split_documents 1500 150 [Document.mk "quarterly revenue".data] =
      split_documents 1500 150 [Document.mk "quarterly revenue".data] ∧
    (split_documents 1500 150 [Document.mk "quarterly revenue".data]).length =
      (split_documents 1500 150 [Document.mk "quarterly revenue".data]).length :=
  split_documents_deterministic 1500 150 1500 150
    [Document.mk "quarterly revenue".data] [Document.mk "quarterly revenue".data] rfl rfl rfl

/-- C4: loading a path whose extension is neither `.pdf` nor `.docx` fails with
`UnsupportedFormat` and the processor state — in particular the performance
log — is returned unchanged, whatever the external parser would have
returned. -/
theorem load_document_unsupported_format (self : DocumentProcessor)
    (file_path : String) (loaderOutcome : Except Err (List Document)) (elapsed : ℚ)
    (hpdf : strEndsWith file_path ".pdf" = false)
    (hdocx : strEndsWith file_path ".docx" = false) :
    DocumentProcessor.load_document self file_path loaderOutcome elapsed =
      (self, .error (Err.unsupportedFormat file_path)) ∧
    (DocumentProcessor.load_document self file_path loaderOutcome elapsed).1.performance_logs
      = self.performance_logs := by
  have h : DocumentProcessor.load_document self file_path loaderOutcome elapsed =
      (self, .error (Err.unsupportedFormat file_path)) := by
    simp [DocumentProcessor.load_document, hpdf, hdocx]
  exact ⟨h, by rw [h]⟩

/-- C4 witness: loading `report.txt` on a fresh processor fails with
`UnsupportedFormat` and appends nothing. -/
theorem load_document_unsupported_format_witness :
    strEndsWith "report.txt" ".pdf" = false ∧
    strEndsWith "report.txt" ".docx" = false ∧
    (DocumentProcessor.load_document (DocumentProcessor.init "key") "report.txt"
        (.ok []) 1 =
      (DocumentProcessor.init "key", .error (Err.unsupportedFormat "report.txt")) ∧
    (DocumentProcessor.load_document (DocumentProcessor.init "key") "report.txt"
        (.ok []) 1).1.performance_logs =
      (DocumentProcessor.init "key").performance_logs) :=
  ⟨by decide, by decide,
    load_document_unsupported_format (DocumentProcessor.init "key") "report.txt"
      (.ok []) 1 (by decide) (by decide)⟩

/-- C5: every pipeline stage, when its body fails, returns the original error
unmodified and leaves the processor — hence the performance log of the
completed stages — unchanged: the failing stage appends nothing. -/
theorem stage_failure_propagates (self : DocumentProcessor) (e : Err) (elapsed : ℚ) :
    (∀ file_path : String,
        (strEndsWith file_path ".pdf" = true ∨ strEndsWith file_path ".docx" = true) →
        DocumentProcessor.load_document self file_path (.error e) elapsed =
          (self, .error e)) ∧
    (∀ documents : List Document,
        DocumentProcessor.split_documents self documents (.error e) elapsed =
          (self, .error e)) ∧
    (∀ splits : List (List Char),
        DocumentProcessor.create_vectorstore self splits (.error e) elapsed =
          (self, .error e)) ∧
    (∀ model_name : String,
        DocumentProcessor.create_qa_chain self model_name (.error e) elapsed =
          (self, .error e)) ∧
    (∀ (qa_chain : QAChain) (query : String) (chat_history : List (String × String)),
        DocumentProcessor.process_query self qa_chain query chat_history
          (.error e) elapsed = (self, .error e)) := by
  refine ⟨?_, fun _ => rfl, fun _ => rfl, fun _ => rfl, fun _ _ _ => rfl⟩
  intro file_path h
  rcases h with h | h
  · simp [DocumentProcessor.load_document, h]
  · by_cases hpdf : strEndsWith file_path ".pdf" = true
    · simp [DocumentProcessor.load_document, hpdf]
    · simp [DocumentProcessor.load_document, hpdf, h]

/-- C5 witness: a failing parse of `a.pdf` and a failing query both propagate
the original error with the processor unchanged. -/
theorem stage_failure_propagates_witness :
    DocumentProcessor.load_document (DocumentProcessor.init "key") "a.pdf"
        (.error (Err.serviceError "boom")) 1 =
      (DocumentProcessor.init "key", .error (Err.serviceError "boom")) ∧
    DocumentProcessor.process_query (DocumentProcessor.init "key")
        ⟨⟨0, "gpt-3.5-turbo-16k"⟩, 6, true⟩ "q" []
        (.error (Err.serviceError "boom")) 1 =
      (DocumentProcessor.init "key", .error (Err.serviceError "boom")) :=
  ⟨(stage_failure_propagates (DocumentProcessor.init "key")
      (Err.serviceError "boom") 1).1 "a.pdf" (Or.inl (by decide)),
   (stage_failure_propagates (DocumentProcessor.init "key")
      (Err.serviceError "boom") 1).2.2.2.2 ⟨⟨0, "gpt-3.5-turbo-16k"⟩, 6, true⟩ "q" []⟩

/-- C6: in a two-question session the history passed to the generator on the
second query is exactly one prior turn — the first question paired with the
first answer — both in the app's flat-history pairing (`src/app.py` line 168)
and in the evaluation loop (`src/evaluate.py` lines 51-55). -/
theorem second_query_history_single_turn
    (gen : String → List (String × String) → String) (q1 q2 : String) :
    (askQuestion gen (askQuestion gen [] q1).1 q2).2.1 = [(q1, gen q1 [])] ∧
    (evalStep gen (evalStep gen [] q1).1 q2).2.1 = [(q1, gen q1 [])] :=
  ⟨rfl, rfl⟩

/-- C8: the chain built by `create_qa_chain` requests the 6 nearest chunks,
invokes the model at temperature 0, and returns the answer text with the
source chunks used; `process_query` passes that result through. -/
theorem qa_chain_config_and_result (self : DocumentProcessor) (model_name : String)
    (elapsed : ℚ) (retrieve : String → Nat → List (List Char))
    (generate : ℚ → String → List (String × String) → List (List Char) → String)
    (question : String) (chat_history : List (String × String)) (result : QAResult) :
    (DocumentProcessor.create_qa_chain self model_name (.ok ()) elapsed).2 =
      .ok { llm := { temperature := 0, model_name := model_name }, k := 6,
            return_source_documents := true } ∧
    runChain retrieve generate
        { llm := { temperature := 0, model_name := model_name }, k := 6,
          return_source_documents := true } question chat_history =
      { answer := generate 0 question chat_history (retrieve question 6),
        source_documents := retrieve question 6 } ∧
    (DocumentProcessor.process_query self
        { llm := { temperature := 0, model_name := model_name }, k := 6,
          return_source_documents := true } question chat_history
        (.ok result) elapsed).2 =
      .ok (result,
        PerfEntry.query_processing question.length result.answer.length elapsed) :=
  ⟨rfl, rfl, rfl⟩

/-- C9: `get_performance_summary` is read-only — it leaves the whole processor
state, in particular the performance log, the chunking configuration and the
API key, unchanged. -/
theorem get_performance_summary_readonly (self : DocumentProcessor) :
    (DocumentProcessor.get_performance_summary self).1 = self ∧
    (DocumentProcessor.get_performance_summary self).1.performance_logs =
      self.performance_logs ∧
    (DocumentProcessor.get_performance_summary self).1.chunk_size =
      self.chunk_size ∧
    (DocumentProcessor.get_performance_summary self).1.chunk_overlap =
      self.chunk_overlap ∧
    (DocumentProcessor.get_performance_summary self).1.openai_api_key =
      self.openai_api_key :=
  ⟨rfl, rfl, rfl, rfl, rfl⟩

/-- Splitting a sum over a list by a Boolean predicate. -/
theorem sum_map_filter_add {α M : Type} [AddCommMonoid M] (p : α → Bool)
    (f : α → M) (l : List α) :
    ((l.filter p).map f).sum + ((l.filter (fun a => !(p a))).map f).sum =
      (l.map f).sum := by
  induction l with
  | nil => simp
  | cons a t ih =>
    by_cases h : p a = true
    · simp only [List.filter_cons, h, Bool.not_true, if_pos, if_neg, List.map_cons,
        List.sum_cons, Bool.false_eq_true, ite_false, ite_true]
      rw [add_assoc, ih]
    · have h2 : p a = false := by
        cases hpa : p a
        · rfl
        · exact absurd hpa h
      simp only [List.filter_cons, h2, Bool.not_false, List.map_cons, List.sum_cons,
        Bool.false_eq_true, ite_false, ite_true]
      rw [add_left_comm, ih]
    
/-- Summing a function groupwise over the key-filtered sublists, for a
duplicate-free key list covering every element, equals summing it over the
whole list. -/
theorem sum_over_groups {α M : Type} [AddCommMonoid M] (key : α → String)
    (f : α → M) :
    ∀ (kinds : List String) (l : List α), kinds.Nodup →
      (∀ a ∈ l, key a ∈ kinds) →
      (kinds.map (fun k => ((l.filter (fun a => key a == k)).map f).sum)).sum =
        (l.map f).sum := by
  intro kinds
  induction kinds with
  | nil =>
    intro l _ hcov
    cases l with
    | nil => simp
    | cons a t => exact absurd (hcov a (by simp)) (by simp)
  | cons k ks ih =>
    intro l hnd hcov
    rw [List.map_cons, List.sum_cons]
    have hks : ks.map (fun k2 => ((l.filter (fun a => key a == k2)).map f).sum) =
        ks.map (fun k2 =>
          (((l.filter (fun a => !(key a == k))).filter
            (fun a => key a == k2)).map f).sum) := by
      apply List.map_congr_left
      intro k2 hk2
      have hne : k2 ≠ k := by
        rintro rfl
        exact (List.nodup_cons.mp hnd).1 hk2
      have hfil : l.filter (fun a => key a == k2) =
          (l.filter (fun a => !(key a == k))).filter (fun a => key a == k2) := by
        rw [List.filter_filter]
        apply List.filter_congr
        intro a _
        by_cases hka : key a = k2
        · simp [hka, hne]
        · simp [hka]
      rw [hfil]
    rw [hks]
    rw [ih (l.filter (fun a => !(key a == k))) (List.nodup_cons.mp hnd).2 ?_]
    · exact sum_map_filter_add (fun a => key a == k) f l
    · intro a ha
      have hmem := List.mem_filter.mp ha
      rcases List.mem_cons.mp (hcov a hmem.1) with h | h
      · exfalso
        have := hmem.2
        rw [h] at this
        simp at this
      · exact h

/-- Summing the constant 1 over a list counts its elements. -/
theorem sum_map_one {α : Type} (l : List α) :
    (l.map (fun _ => (1 : ℕ))).sum = l.length := by
  induction l with
  | nil => rfl
  | cons a t ih =>
    simp only [List.map_cons, List.sum_cons, List.length_cons, ih]
    omega

/-- Membership in the first-occurrence fold of `opKinds`, generalized over the
accumulator. -/
theorem opKinds_aux_mem (op : String) :
    ∀ (l : List PerfEntry) (acc : List String),
      (op ∈ l.foldl
          (fun acc log => if log.operation ∈ acc then acc else acc ++ [log.operation])
          acc ↔
        op ∈ acc ∨ op ∈ l.map PerfEntry.operation) := by
  intro l
  induction l with
  | nil => intro acc; simp
  | cons e t ih =>
    intro acc
    rw [List.foldl_cons, ih]
    by_cases hm : e.operation ∈ acc
    · rw [if_pos hm]
      simp only [List.map_cons, List.mem_cons]
      constructor
      · rintro (h | h)
        · exact Or.inl h
        · exact Or.inr (Or.inr h)
      · rintro (h | h | h)
        · exact Or.inl h
        · exact Or.inl (h ▸ hm)
        · exact Or.inr h
    · rw [if_neg hm]
      simp only [List.map_cons, List.mem_cons, List.mem_append, List.mem_singleton]
      tauto

/-- An operation kind is listed by `opKinds` exactly when some log entry has
that kind. -/
theorem opKinds_mem (logs : List PerfEntry) (op : String) :
    op ∈ opKinds logs ↔ op ∈ logs.map PerfEntry.operation := by
  rw [opKinds, opKinds_aux_mem]
  simp

/-- The first-occurrence fold of `opKinds` preserves freedom from duplicates. -/
theorem opKinds_aux_nodup :
    ∀ (l : List PerfEntry) (acc : List String), acc.Nodup →
      (l.foldl
        (fun acc log => if log.operation ∈ acc then acc else acc ++ [log.operation])
        acc).Nodup := by
  intro l
  induction l with
  | nil => intro acc h; exact h
  | cons e t ih =>
    intro acc h
    rw [List.foldl_cons]
    apply ih
    by_cases hm : e.operation ∈ acc
    · rw [if_pos hm]; exact h
    · rw [if_neg hm]
      simp [List.nodup_append, h, hm]

/-- The kind list produced by `opKinds` has no duplicates. -/
theorem opKinds_nodup (logs : List PerfEntry) : (opKinds logs).Nodup :=
  opKinds_aux_nodup logs [] List.nodup_nil

/-- A kind that occurs in the log has a nonempty group. -/
theorem groupOf_length_pos (logs : List PerfEntry) (op : String)
    (h : op ∈ logs.map PerfEntry.operation) : 0 < (groupOf logs op).length := by
  obtain ⟨e, he, hop⟩ := List.mem_map.mp h
  have hmem : e ∈ groupOf logs op :=
    List.mem_filter.mpr ⟨he, by simp [hop]⟩
  exact List.length_pos.mpr (List.ne_nil_of_mem hmem)

/-- C3: `get_performance_summary` over an empty performance log returns the
empty summary; over a non-empty log it returns, for every operation kind
present, the count of that kind's entries and the arithmetic mean of their
elapsed times — so mean times count equals that kind's sum of elapsed times,
exactly in rational arithmetic — plus the grand total elapsed time over all
entries. -/
theorem get_performance_summary_spec :
    (∀ self : DocumentProcessor, self.performance_logs = [] →
        (DocumentProcessor.get_performance_summary self).2 = none) ∧
    (∀ self : DocumentProcessor, self.performance_logs ≠ [] →
        ∃ s, (DocumentProcessor.get_performance_summary self).2 = some s ∧
          s.total_processing_time =
            (self.performance_logs.map PerfEntry.processing_time).sum ∧
          ∀ op ∈ self.performance_logs.map PerfEntry.operation,
            (op, (groupOf self.performance_logs op).length) ∈ s.operation_counts ∧
            ∃ m, (op, m) ∈ s.average_times ∧
              m * ((groupOf self.performance_logs op).length : ℚ) =
                ((groupOf self.performance_logs op).map
                  PerfEntry.processing_time).sum) := by
  constructor
  · intro self h
    show summarize self.performance_logs = none
    unfold summarize
    rw [if_pos h]
  · intro self h
    refine ⟨{ total_operations := self.performance_logs.length,
              total_processing_time :=
                (self.performance_logs.map PerfEntry.processing_time).sum,
              operation_counts := (opKinds self.performance_logs).map
                (fun op => (op, (groupOf self.performance_logs op).length)),
              average_times := (opKinds self.performance_logs).map
                (fun op => (op,
                  ((groupOf self.performance_logs op).map
                    PerfEntry.processing_time).sum /
                    ((groupOf self.performance_logs op).length : ℚ))) },
            ?_, rfl, ?_⟩
    · show summarize self.performance_logs = some _
      unfold summarize
      rw [if_neg h]
    · intro op hop
      have hk : op ∈ opKinds self.performance_logs := (opKinds_mem _ _).mpr hop
      refine ⟨List.mem_map_of_mem _ hk, ?_⟩
      refine ⟨_, List.mem_map_of_mem _ hk, ?_⟩
      have hpos : 0 < (groupOf self.performance_logs op).length :=
        groupOf_length_pos _ _ hop
      have hne : ((groupOf self.performance_logs op).length : ℚ) ≠ 0 :=
        Nat.cast_ne_zero.mpr (Nat.pos_iff_ne_zero.mp hpos)
      exact div_mul_cancel₀ _ hne

/-- C3 witness: the summary contract at a concrete one-entry log. -/
theorem get_performance_summary_spec_witness :
    (DocumentProcessor.mk "key" 1500 150
        [PerfEntry.vectorstore_creation 4 2]).performance_logs ≠ [] ∧
    (∃ s, (DocumentProcessor.get_performance_summary
          (DocumentProcessor.mk "key" 1500 150
            [PerfEntry.vectorstore_creation 4 2])).2 = some s ∧
      s.total_processing_time =
        (((DocumentProcessor.mk "key" 1500 150
            [PerfEntry.vectorstore_creation 4 2]).performance_logs).map
          PerfEntry.processing_time).sum ∧
      ∀ op ∈ ((DocumentProcessor.mk "key" 1500 150
          [PerfEntry.vectorstore_creation 4 2]).performance_logs).map
            PerfEntry.operation,
        (op, (groupOf (DocumentProcessor.mk "key" 1500 150
          [PerfEntry.vectorstore_creation 4 2]).performance_logs op).length) ∈
            s.operation_counts ∧
        ∃ m, (op, m) ∈ s.average_times ∧
          m * ((groupOf (DocumentProcessor.mk "key" 1500 150
            [PerfEntry.vectorstore_creation 4 2]).performance_logs op).length : ℚ) =
            ((groupOf (DocumentProcessor.mk "key" 1500 150
              [PerfEntry.vectorstore_creation 4 2]).performance_logs op).map
              PerfEntry.processing_time).sum) :=
  ⟨by decide, get_performance_summary_spec.2 _ (by decide)⟩

/-- C10: over a non-empty log the summary is internally consistent:
`total_operations` is the sum of the per-kind counts, and
`total_processing_time` equals the sum over kinds of count times mean, exactly
in rational arithmetic. -/
theorem performance_summary_consistent (self : DocumentProcessor)
    (h : self.performance_logs ≠ []) :
    ∃ s, (DocumentProcessor.get_performance_summary self).2 = some s ∧
      s.total_operations = (s.operation_counts.map Prod.snd).sum ∧
      s.total_processing_time =
        ((s.operation_counts.zip s.average_times).map
          (fun q => (q.1.2 : ℚ) * q.2.2)).sum := by
  have hcov : ∀ a ∈ self.performance_logs,
      PerfEntry.operation a ∈ opKinds self.performance_logs :=
    fun a ha => (opKinds_mem _ _).mpr (List.mem_map_of_mem _ ha)
  refine ⟨{ total_operations := self.performance_logs.length,
            total_processing_time :=
              (self.performance_logs.map PerfEntry.processing_time).sum,
            operation_counts := (opKinds self.performance_logs).map
              (fun op => (op, (groupOf self.performance_logs op).length)),
            average_times := (opKinds self.performance_logs).map
              (fun op => (op,
                ((groupOf self.performance_logs op).map
                  PerfEntry.processing_time).sum /
                  ((groupOf self.performance_logs op).length : ℚ))) },
          ?_, ?_, ?_⟩
  · show summarize self.performance_logs = some _
    unfold summarize
    rw [if_neg h]
  · show self.performance_logs.length = _
    rw [List.map_map]
    have hgen := sum_over_groups PerfEntry.operation (fun _ => (1 : ℕ))
      (opKinds self.performance_logs) self.performance_logs
      (opKinds_nodup _) hcov
    simp only [sum_map_one] at hgen
    exact hgen.symm
  · show (self.performance_logs.map PerfEntry.processing_time).sum = _
    rw [List.zip_map', List.map_map]
    have hgen := sum_over_groups PerfEntry.operation PerfEntry.processing_time
      (opKinds self.performance_logs) self.performance_logs
      (opKinds_nodup _) hcov
    have hmap : ((opKinds self.performance_logs).map (fun op =>
        ((groupOf self.performance_logs op).map PerfEntry.processing_time).sum)).sum =
        (self.performance_logs.map PerfEntry.processing_time).sum := hgen
    rw [← hmap]
    congr 1
    apply List.map_congr_left
    intro op hop
    show ((groupOf self.performance_logs op).map PerfEntry.processing_time).sum =
      ((groupOf self.performance_logs op).length : ℚ) *
        (((groupOf self.performance_logs op).map PerfEntry.processing_time).sum /
          ((groupOf self.performance_logs op).length : ℚ))
    have hpos : 0 < (groupOf self.performance_logs op).length :=
      groupOf_length_pos _ _ ((opKinds_mem _ _).mp hop)
    have hne : ((groupOf self.performance_logs op).length : ℚ) ≠ 0 :=
      Nat.cast_ne_zero.mpr (Nat.pos_iff_ne_zero.mp hpos)
    rw [mul_comm]
    exact (div_mul_cancel₀ _ hne).symm

/-- C10 witness: internal consistency at a concrete two-entry log. -/
theorem performance_summary_consistent_witness :
    (DocumentProcessor.mk "key" 1500 150
        [PerfEntry.document_loading "pdf" 3 2,
          PerfEntry.query_processing 5 7 4]).performance_logs ≠ [] ∧
    (∃ s, (DocumentProcessor.get_performance_summary
          (DocumentProcessor.mk "key" 1500 150
            [PerfEntry.document_loading "pdf" 3 2,
              PerfEntry.query_processing 5 7 4])).2 = some s ∧
      s.total_operations = (s.operation_counts.map Prod.snd).sum ∧
      s.total_processing_time =
        ((s.operation_counts.zip s.average_times).map
          (fun q => (q.1.2 : ℚ) * q.2.2)).sum) :=
  ⟨by decide, performance_summary_consistent _ (by decide)⟩
